import Mathlib

/-!
Verification development for the workout-plan import pipeline
(`backend/app/services/exercise_matcher.py`, `backend/app/services/llm_service.py`,
`backend/app/services/parser_service.py`, `backend/app/api/workout_plans.py`,
`backend/app/schemas/workout_plans.py`, `backend/app/config.py`).

The Python code is shallowly embedded: every function below is a direct
translation of the corresponding Python function; Python floats are embedded
as rationals, fallible constructors (pydantic validators, exceptions) as
`Except String`, database rows as lists of records, and external
collaborators (the rapidfuzz scorer, `json.loads`, the HTTP call to the LLM)
as explicit parameters or as models of their documented behaviour.
-/

namespace AW

/-- Confidence tiers, from `app/enums.py` (`ConfidenceLevelEnum`). -/
inductive ConfidenceLevel where
  | high
  | medium
  | low
deriving DecidableEq

/-- Default value of `settings.exercise_match_threshold` (`app/config.py`). -/
def exercise_match_threshold : ℚ := 80 / 100

/-- Default value of `settings.exercise_match_high_threshold` (`app/config.py`). -/
def exercise_match_high_threshold : ℚ := 90 / 100

/-- Default value of `settings.exercise_match_low_threshold` (`app/config.py`). -/
def exercise_match_low_threshold : ℚ := 70 / 100

/-- A catalog exercise row (`app/models.py`, class `Exercise`), restricted to
the fields the import pipeline reads.  `secondary_muscle_groups` is nullable
in the model (`exercise.secondary_muscle_groups or []` in the parser). -/
structure Exercise where
  id : String
  name : String
  primary_muscle_groups : List String
  secondary_muscle_groups : Option (List String)
deriving DecidableEq

/-- Python `str.split()` with no argument: split on whitespace, dropping
empty tokens. -/
def pySplit (s : String) : List String :=
  (s.split Char.isWhitespace).filter (fun t => t ≠ "")

/-- Indel (insertion/deletion) edit distance between character lists.  This
is the distance underlying rapidfuzz's `fuzz.ratio` scorer (an external
library; modelled here from its documented semantics). -/
def indelDist : List Char → List Char → ℕ
  | [], ys => ys.length
  | x :: xs, [] => (x :: xs).length
  | x :: xs, y :: ys =>
    if x = y then indelDist xs ys
    else 1 + min (indelDist (x :: xs) ys) (indelDist xs (y :: ys))
termination_by xs ys => xs.length + ys.length

/-- rapidfuzz `fuzz.ratio`: normalized indel similarity in [0, 100]. -/
def fuzzSimilarity (a b : String) : ℚ :=
  let la := a.data.length
  let lb := b.data.length
  if la + lb = 0 then 100
  else 100 * (((la : ℚ) + lb) - indelDist a.data b.data) / ((la : ℚ) + lb)

/-- Lexicographic comparison of character lists (used to sort tokens). -/
def charListLe : List Char → List Char → Bool
  | [], _ => true
  | _ :: _, [] => false
  | x :: xs, y :: ys => if x = y then charListLe xs ys else decide (x < y)

/-- Insertion into a lexicographically sorted token list. -/
def insertToken (t : String) : List String → List String
  | [] => [t]
  | u :: us => if charListLe t.data u.data then t :: u :: us else u :: insertToken t us

/-- Insertion sort of a token list. -/
def sortTokens : List String → List String
  | [] => []
  | t :: ts => insertToken t (sortTokens ts)

/-- Token-sort normalization: split into whitespace tokens, sort them, and
rejoin with single spaces. -/
def tokenSort (s : String) : String :=
  String.intercalate " " (sortTokens (pySplit s))

/-- rapidfuzz `fuzz.token_sort_ratio`: token-order-insensitive similarity. -/
def tokenSortSimilarity (a b : String) : ℚ :=
  fuzzSimilarity (tokenSort a) (tokenSort b)

/-- Key order of the Python dict `{ex.name: ex for ex in exercises}`: each
key appears once, at the position of its first insertion. -/
def insertKey (ks : List String) (n : String) : List String :=
  if n ∈ ks then ks else ks ++ [n]

/-- Keys of the Python dict `{ex.name: ex for ex in exercises}`
(`ExerciseMatcher.match_exercise`, `exercise_names.keys()`). -/
def dictKeys (exs : List Exercise) : List String :=
  exs.foldl (fun ks e => insertKey ks e.name) []

/-- Lookup in the Python dict `{ex.name: ex for ex in exercises}`: the value
stored for a key is the *last* exercise inserted with that name. -/
def dictGet (exs : List Exercise) (n : String) : Option Exercise :=
  exs.reverse.find? (fun e => e.name = n)

/-- Lookup in the Python dict `{str(ex.id): ex for ex in exercises}`
(`ParserService.parse_workout_plan`, `exercise_map`). -/
def dictGetById (exs : List Exercise) (i : String) : Option Exercise :=
  exs.reverse.find? (fun e => e.id = i)

/-- Ordering by descending score, used to model `process.extract`. -/
def scoreGE (a b : String × ℚ) : Prop := b.2 ≤ a.2

instance : DecidableRel scoreGE :=
  fun a b => inferInstanceAs (Decidable (b.2 ≤ a.2))

instance : IsTotal (String × ℚ) scoreGE :=
  ⟨fun a b => (le_total b.2 a.2).imp id id⟩

instance : IsTrans (String × ℚ) scoreGE :=
  ⟨fun _ _ _ h1 h2 => le_trans h2 h1⟩

/-- rapidfuzz `process.extract(query, choices, scorer, limit)`: score every
choice and return the `limit` best, ordered by descending score (external
library; modelled from its documented semantics). -/
def processExtract (scorer : String → String → ℚ) (query : String)
    (choices : List String) (limit : ℕ) : List (String × ℚ) :=
  (List.insertionSort scoreGE (choices.map (fun c => (c, scorer query c)))).take limit

/-- Embedding of `ExerciseMatcher.match_exercise`
(`app/services/exercise_matcher.py`, lines 27-75).  The database query
becomes the list `exercises`; `self.low_threshold` (read from settings in
`__init__`) and the rapidfuzz scorer become parameters. -/
def matchExerciseWith (scorer : String → String → ℚ) (low_threshold : ℚ)
    (exercises : List Exercise) (exercise_text : String) (top_n : ℕ) :
    Option Exercise × ℚ × List (Exercise × ℚ) :=
  match exercises with
  | [] => (none, 0, [])
  | _ :: _ =>
    let matchList := processExtract scorer exercise_text (dictKeys exercises) top_n
    match matchList with
    | [] => (none, 0, [])
    | (best_name, best_raw) :: rest =>
      let best_score := best_raw / 100
      let best_exercise :=
        if low_threshold ≤ best_score then dictGet exercises best_name
        else none
      let tail_matches :=
        if best_exercise.isSome then rest else (best_name, best_raw) :: rest
      let alternatives := tail_matches.filterMap (fun p =>
        if low_threshold ≤ p.2 / 100 then
          (dictGet exercises p.1).map (fun e => (e, p.2 / 100))
        else none)
      (best_exercise, best_score, alternatives)

/-- Embedding of `ExerciseMatcher.match_exercise` with the concrete scorer
(`fuzz.token_sort_ratio`) and the configured low threshold. -/
def matchExercise (exercises : List Exercise) (exercise_text : String) (top_n : ℕ) :
    Option Exercise × ℚ × List (Exercise × ℚ) :=
  matchExerciseWith tokenSortSimilarity exercise_match_low_threshold exercises exercise_text top_n

/-- Embedding of `ExerciseMatcher.get_confidence_level`
(`app/services/exercise_matcher.py`, lines 77-84), at the configured
thresholds. -/
def getConfidenceLevel (score : ℚ) : ConfidenceLevel :=
  if exercise_match_high_threshold ≤ score then .high
  else if exercise_match_threshold ≤ score then .medium
  else .low

/-- Configuration for a single set (`app/schemas/workout_plans.py`, class
`SetConfig`, lines 84-103): the validated record. -/
structure SetConfig where
  set_number : ℤ
  reps_min : ℤ
  reps_max : ℤ
deriving DecidableEq

/-- Pydantic construction of `SetConfig`: runs the two field validators
(`validate_set_number`, `validate_reps`) and fails as a pydantic
`ValidationError` if any rejects. -/
def mkSetConfig (set_number reps_min reps_max : ℤ) : Except String SetConfig :=
  if set_number < 1 ∨ set_number > 50 then
    .error "Set number must be between 1 and 50"
  else if reps_min < 1 ∨ reps_min > 200 then
    .error "Reps must be between 1 and 200"
  else if reps_max < 1 ∨ reps_max > 200 then
    .error "Reps must be between 1 and 200"
  else
    .ok { set_number := set_number, reps_min := reps_min, reps_max := reps_max }

/-- Matched exercise draft record (`app/schemas/workout_plans.py`, class
`ParsedExerciseMatch`): no validators beyond field types. -/
structure ParsedExerciseMatch where
  exercise_id : String
  exercise_name : String
  original_text : String
  confidence : ℚ
  confidence_level : ConfidenceLevel
  primary_muscle_groups : List String
  secondary_muscle_groups : List String
deriving DecidableEq

/-- Single parsed exercise with matching info (`app/schemas/workout_plans.py`,
class `ParsedExerciseItem`). -/
structure ParsedExerciseItem where
  matched_exercise : Option ParsedExerciseMatch
  original_text : String
  set_configurations : List SetConfig
  rest_seconds : Option ℤ
  notes : Option String
  sequence : ℤ
  alternatives : List ParsedExerciseMatch
deriving DecidableEq

/-- Single parsed workout (`app/schemas/workout_plans.py`, class
`ParsedWorkoutItem`). -/
structure ParsedWorkoutItem where
  name : String
  day_number : Option ℤ
  order_index : ℤ
  exercises : List ParsedExerciseItem
deriving DecidableEq

/-- The `stats` dict threaded through `ParserService.parse_workout_plan`
(`stats = {"high": 0, "medium": 0, "low": 0, "unmatched": 0}`). -/
structure Stats where
  high : ℕ
  medium : ℕ
  low : ℕ
  unmatched : ℕ
deriving DecidableEq

/-- Initial statistics dict. -/
def Stats.init : Stats := { high := 0, medium := 0, low := 0, unmatched := 0 }

/-- One entry of the `sets` array in the LLM response JSON
(`{"reps_min": ..., "reps_max": ...}`); absent keys modelled as `none`. -/
structure SetData where
  reps_min : Option ℤ
  reps_max : Option ℤ
deriving DecidableEq

/-- One exercise entry of the LLM response JSON, as read by
`ParserService._build_exercise_from_llm` through `ex_data.get(...)`; a key
that is absent (or JSON `null`) is modelled as `none`. -/
structure ExData where
  original_text : Option String
  exercise_id : Option String
  confidence : Option ℚ
  sets : Option (List SetData)
  rest_seconds : Option ℤ
  notes : Option String
  sequence : Option ℤ
deriving DecidableEq

/-- One workout entry of the LLM response JSON, as read by
`ParserService._process_workout`. -/
structure WorkoutData where
  name : Option String
  day_number : Option ℤ
  order_index : Option ℤ
  exercises : Option (List ExData)
deriving DecidableEq

/-- The parsed LLM response JSON object, as read by
`ParserService.parse_workout_plan` (keys `name`, `description`, `workouts`). -/
structure LLMResult where
  name : Option String
  description : Option String
  workouts : Option (List WorkoutData)
deriving DecidableEq

/-- The default sets used when the LLM did not return a `sets` array:
`[{"reps_min": 8, "reps_max": 12}] * 3`. -/
def defaultSetsData : List SetData :=
  [{ reps_min := some 8, reps_max := some 12 },
   { reps_min := some 8, reps_max := some 12 },
   { reps_min := some 8, reps_max := some 12 }]

/-- The list comprehension building `set_configurations` in
`ParserService._build_exercise_from_llm` (lines 177-184): `SetConfig`
construction for `enumerate(sets_data)`, with `set_number = i + 1` and pydantic
validation failing the whole parse. -/
def mkSetConfigs : ℕ → List SetData → Except String (List SetConfig)
  | _, [] => .ok []
  | i, sd :: rest =>
    match mkSetConfig ((i : ℤ) + 1) (sd.reps_min.getD 8) (sd.reps_max.getD 12) with
    | .error e => .error e
    | .ok c =>
      match mkSetConfigs (i + 1) rest with
      | .error e => .error e
      | .ok cs => .ok (c :: cs)

/-- The guard of the `matched_exercise` branch in
`ParserService._build_exercise_from_llm` (line 144):
`exercise_id and exercise_id in exercise_map and confidence >= 0.70`
(Python truthiness: `None` and the empty string are falsy). -/
def llmResolved (exercise_map : List Exercise) (ex : ExData) : Bool :=
  match ex.exercise_id with
  | none => false
  | some eid =>
    eid ≠ "" && (dictGetById exercise_map eid).isSome
      && decide ((70 : ℚ) / 100 ≤ ex.confidence.getD 0)

/-- The `matched_exercise` branch of `ParserService._build_exercise_from_llm`
(lines 139-168): the optional match built from the LLM-supplied id and
confidence, together with the updated `stats` dict (exactly one counter is
incremented per exercise). -/
def buildMatched (exercise_map : List Exercise) (stats : Stats) (ex : ExData) :
    Option ParsedExerciseMatch × Stats :=
  let original_text := ex.original_text.getD ""
  let confidence := ex.confidence.getD 0
  match ex.exercise_id with
    | some eid =>
      if eid ≠ "" then
        match dictGetById exercise_map eid with
        | some exercise =>
          if (70 : ℚ) / 100 ≤ confidence then
            let levelStats : ConfidenceLevel × Stats :=
              if (90 : ℚ) / 100 ≤ confidence then
                (.high, { stats with high := stats.high + 1 })
              else if (80 : ℚ) / 100 ≤ confidence then
                (.medium, { stats with medium := stats.medium + 1 })
              else
                (.low, { stats with low := stats.low + 1 })
            (some
              { exercise_id := exercise.id
                exercise_name := exercise.name
                original_text := original_text
                confidence := confidence
                confidence_level := levelStats.1
                primary_muscle_groups := exercise.primary_muscle_groups
                secondary_muscle_groups := exercise.secondary_muscle_groups.getD [] },
              levelStats.2)
          else (none, { stats with unmatched := stats.unmatched + 1 })
        | none => (none, { stats with unmatched := stats.unmatched + 1 })
      else (none, { stats with unmatched := stats.unmatched + 1 })
    | none => (none, { stats with unmatched := stats.unmatched + 1 })

/-- The `sets_data` selection of `ParserService._build_exercise_from_llm`
(lines 171-174): fall back to the default when the LLM returned no sets
array (`if not sets_data`, so both a missing key and an empty array). -/
def selectSetsData (ex : ExData) : List SetData :=
  match ex.sets with
  | none => defaultSetsData
  | some [] => defaultSetsData
  | some l => l

/-- Embedding of `ParserService._build_exercise_from_llm`
(`app/services/parser_service.py`, lines 134-195).  The mutated `stats`
dict is threaded explicitly; pydantic validation errors abort the parse
(they are caught only at the worker boundary). -/
def buildExerciseFromLLM (exercise_map : List Exercise) (stats : Stats)
    (ex : ExData) : Except String (ParsedExerciseItem × Stats) :=
  let matchedStats := buildMatched exercise_map stats ex
  match mkSetConfigs 0 (selectSetsData ex) with
  | .error e => .error e
  | .ok set_configurations =>
    .ok
      ({ matched_exercise := matchedStats.1
         original_text := ex.original_text.getD ""
         set_configurations := set_configurations
         rest_seconds := ex.rest_seconds
         notes := ex.notes
         sequence := ex.sequence.getD 0
         alternatives := [] },
       matchedStats.2)

/-- The exercise loop of `ParserService._process_workout` (lines 121-125). -/
def processExercises (exercise_map : List Exercise) (stats : Stats) :
    List ExData → Except String (List ParsedExerciseItem × Stats)
  | [] => .ok ([], stats)
  | ex :: rest =>
    match buildExerciseFromLLM exercise_map stats ex with
    | .error e => .error e
    | .ok (item, stats1) =>
      match processExercises exercise_map stats1 rest with
      | .error e => .error e
      | .ok (items, stats2) => .ok (item :: items, stats2)

/-- Embedding of `ParserService._process_workout`
(`app/services/parser_service.py`, lines 117-132). -/
def processWorkout (exercise_map : List Exercise) (stats : Stats)
    (wd : WorkoutData) : Except String (ParsedWorkoutItem × Stats) :=
  match processExercises exercise_map stats (wd.exercises.getD []) with
  | .error e => .error e
  | .ok (items, stats1) =>
    .ok
      ({ name := wd.name.getD "Workout"
         day_number := wd.day_number
         order_index := wd.order_index.getD 0
         exercises := items },
       stats1)

/-- The workout loop of `ParserService.parse_workout_plan` (lines 70-73),
threading `stats` and accumulating `total_exercises`. -/
def processWorkouts (exercise_map : List Exercise) (stats : Stats) (total : ℕ) :
    List WorkoutData → Except String (List ParsedWorkoutItem × Stats × ℕ)
  | [] => .ok ([], stats, total)
  | wd :: rest =>
    match processWorkout exercise_map stats wd with
    | .error e => .error e
    | .ok (pw, stats1) =>
      match processWorkouts exercise_map stats1 (total + pw.exercises.length) rest with
      | .error e => .error e
      | .ok (pws, stats2, total2) => .ok (pw :: pws, stats2, total2)

/-- Parsed plan draft (`app/schemas/workout_plans.py`, class
`ParsedWorkoutPlan`); the import-log id is kept abstract as a string. -/
structure ParsedWorkoutPlan where
  name : String
  description : Option String
  workouts : List ParsedWorkoutItem
  raw_text : String
deriving DecidableEq

/-- Response of the parse step (`app/schemas/workout_plans.py`, class
`WorkoutPlanParseResponse`). -/
structure WorkoutPlanParseResponse where
  parsed_plan : ParsedWorkoutPlan
  total_exercises : ℕ
  high_confidence_count : ℕ
  medium_confidence_count : ℕ
  low_confidence_count : ℕ
  unmatched_count : ℕ
deriving DecidableEq

/-- Embedding of `ParserService.parse_workout_plan`
(`app/services/parser_service.py`, lines 32-115), from the point where the
LLM result is available (steps 3 and 5; the database import-log write of
step 4 does not affect the response). -/
def parseWorkoutPlanCore (exercises : List Exercise) (text : String)
    (llm_result : LLMResult) : Except String WorkoutPlanParseResponse :=
  match processWorkouts exercises Stats.init 0 (llm_result.workouts.getD []) with
  | .error e => .error e
  | .ok (parsed_workouts, stats, total_exercises) =>
    .ok
      { parsed_plan :=
          { name := llm_result.name.getD "Workout Plan"
            description := llm_result.description
            workouts := parsed_workouts
            raw_text := text }
        total_exercises := total_exercises
        high_confidence_count := stats.high
        medium_confidence_count := stats.medium
        low_confidence_count := stats.low
        unmatched_count := stats.unmatched }

/-- Python `str.find(sub, start)` over character lists: the smallest index
`i` with `start ≤ i` at which `sub` occurs (Python returns -1 when absent;
modelled as `none`). -/
def pyFind (hay needle : List Char) (start : ℕ) : Option ℕ :=
  (List.range (hay.length + 1)).find?
    (fun i => decide (start ≤ i) && needle.isPrefixOf (hay.drop i))

/-- Python slice `l[start:stop]` for `start ≥ 0`, where `stop` may be
negative (counted from the end, which happens in `_extract_json` when the
closing fence is missing and `find` returned -1). -/
def pySlice (l : List Char) (start : ℕ) (stop : ℤ) : List Char :=
  let stopN : ℕ := if stop < 0 then ((l.length : ℤ) + stop).toNat else stop.toNat
  (l.take stopN).drop start

/-- Python `str.strip()`: remove leading and trailing whitespace. -/
def pyStrip (cs : List Char) : List Char :=
  ((cs.dropWhile Char.isWhitespace).reverse.dropWhile Char.isWhitespace).reverse

/-- The fence-stripping part of `LLMService._extract_json`
(`app/services/llm_service.py`, lines 157-165): if the content holds a
markdown code fence, cut out the fenced region and strip it. -/
def stripFences (content : String) : String :=
  let cs := content.data
  match pyFind cs "```json".data 0 with
  | some idx =>
    let start := idx + 7
    let stop : ℤ :=
      match pyFind cs "```".data start with
      | some e => (e : ℤ)
      | none => -1
    String.mk (pyStrip (pySlice cs start stop))
  | none =>
    match pyFind cs "```".data 0 with
    | some idx =>
      let start := idx + 3
      let stop : ℤ :=
        match pyFind cs "```".data start with
        | some e => (e : ℤ)
        | none => -1
      String.mk (pyStrip (pySlice cs start stop))
    | none => content

/-- Embedding of `LLMService._extract_json` (`app/services/llm_service.py`,
lines 155-171): locate the JSON content (stripping markdown code fences) and
parse it.  Python `json.loads` (standard library, external to this
repository) is the parameter `jsonLoads`; success yields the duck-typed
object exactly as the parser later reads it. -/
def extractJson (jsonLoads : String → Except String LLMResult)
    (content : String) : Except String LLMResult :=
  match jsonLoads (stripFences content) with
  | .ok d => .ok d
  | .error e => .error ("Invalid JSON response from LLM: " ++ e)

/-- Embedding of `LLMService.parse_workout_text` (`app/services/llm_service.py`,
lines 29-71).  The single `acompletion` HTTP call is represented by its
outcome `callOutcome` (`.error` covers network errors, timeouts and non-2xx
responses, all raised as exceptions by litellm); the function consumes
exactly one outcome — one attempt per invocation, no internal retry — and
wraps every failure into one exception message. -/
def parseWorkoutText (jsonLoads : String → Except String LLMResult)
    (callOutcome : Except String String) : Except String LLMResult :=
  match callOutcome with
  | .error e => .error ("Failed to parse workout plan: " ++ e)
  | .ok content =>
    match extractJson jsonLoads content with
    | .ok d => .ok d
    | .error e => .error ("Failed to parse workout plan: " ++ e)

/-- The draft produced by an empty JSON object: every key absent. -/
def emptyDraft : LLMResult := { name := none, description := none, workouts := none }

/-- Modelled from the spec: the fragment of Python `json.loads` (standard
library, not part of this repository) needed for concrete witnesses — the
two-character object literal "\x7b\x7d" parses to the empty JSON object
(every key absent), anything else is a decode error. -/
def jsonLoadsEmptyObj (s : String) : Except String LLMResult :=
  if s = "\x7b\x7d" then .ok emptyDraft
  else .error "Expecting value: line 1 column 1 (char 0)"

/-- Job status (the `status` column of `WorkoutImportLog` in
`app/models.py`; the values written by `app/api/workout_plans.py`). -/
inductive JobStatus where
  | pending
  | processing
  | completed
  | failed
deriving DecidableEq

/-- An import-job row (`app/models.py`, class `WorkoutImportLog`),
restricted to the fields the pipeline reads or writes. -/
structure ImportLog where
  id : String
  user_id : String
  raw_text : String
  status : JobStatus
  result : Option WorkoutPlanParseResponse
  error : Option String
  workout_plan_id : Option String
deriving DecidableEq

/-- The freshly inserted job record of `parse_workout_plan`
(`app/api/workout_plans.py`, lines 519-528). -/
def newImportLog (id user_id raw_text : String) : ImportLog :=
  { id := id, user_id := user_id, raw_text := raw_text, status := .pending,
    result := none, error := none, workout_plan_id := none }

/-- Response dict of `get_parse_status` (`app/api/workout_plans.py`, lines
622-631); the `result` and `error` keys are only added in the corresponding
terminal states (absence modelled as `none`). -/
structure ParseStatusResponse where
  import_log_id : String
  status : JobStatus
  result : Option WorkoutPlanParseResponse
  error : Option String
deriving DecidableEq

/-- Building the `get_parse_status` response dict from a job row. -/
def statusResponseOf (log : ImportLog) : ParseStatusResponse :=
  { import_log_id := log.id
    status := log.status
    result := if log.status = .completed then log.result else none
    error := if log.status = .failed then log.error else none }

/-- The owner-scoped query
`db.query(WorkoutImportLog).filter(WorkoutImportLog.id == ...,
WorkoutImportLog.user_id == ...).first()` used by both `get_parse_status`
and `create_workout_plan_from_parsed`. -/
def lookupLog (logs : List ImportLog) (import_log_id user_id : String) :
    Option ImportLog :=
  logs.find? (fun l => l.id == import_log_id && l.user_id == user_id)

/-- An HTTPException response (status code and detail). -/
structure HttpError where
  status_code : ℕ
  detail : String
deriving DecidableEq

/-- The 404 detail shared by `get_parse_status` and
`create_workout_plan_from_parsed`. -/
def notFoundError : HttpError := { status_code := 404, detail := "Import log not found" }

/-- The 400 response of an already-consumed job. -/
def alreadyLinkedError : HttpError :=
  { status_code := 400, detail := "Workout plan already created from this import" }

/-- The 400 response for unknown exercise ids. -/
def missingIdsError : HttpError :=
  { status_code := 400, detail := "Exercise IDs not found" }

/-- Embedding of `get_parse_status` (`app/api/workout_plans.py`, lines
590-632): owner-scoped lookup, 404 on miss, pure read otherwise. -/
def getParseStatus (logs : List ImportLog) (import_log_id user_id : String) :
    Except HttpError ParseStatusResponse :=
  match lookupLog logs import_log_id user_id with
  | none => .error notFoundError
  | some log => .ok (statusResponseOf log)

/-- Setting `import_log.workout_plan_id` on the matching row
(`create_workout_plan_from_parsed`, line 723) followed by the commit. -/
def linkLog (logs : List ImportLog) (import_log_id plan_id : String) :
    List ImportLog :=
  logs.map (fun l =>
    if l.id = import_log_id then { l with workout_plan_id := some plan_id } else l)

/-- Embedding of `create_workout_plan_from_parsed`
(`app/api/workout_plans.py`, lines 635-736).  The request is reduced to the
fields its guards read: the import-log id and the per-workout exercise-id
lists; the `Exercise` table becomes `existing_ids`, and the id the database
generates for the new `WorkoutPlan` row is the parameter `new_plan_id`.
Success returns the updated job table and the created plan id. -/
def createFromParsed (logs : List ImportLog) (existing_ids : List String)
    (user_id import_log_id : String) (workout_exercise_ids : List (List String))
    (new_plan_id : String) : Except HttpError (List ImportLog × String) :=
  match lookupLog logs import_log_id user_id with
  | none => .error notFoundError
  | some log =>
    if log.workout_plan_id.isSome then
      .error alreadyLinkedError
    else
      let all_exercise_ids := workout_exercise_ids.flatten
      if all_exercise_ids.any (fun i => decide (i ∉ existing_ids)) then
        .error missingIdsError
      else
        .ok (linkLog logs import_log_id new_plan_id, new_plan_id)

/-- A sequence of non-interleaved calls to `create_workout_plan_from_parsed`
for one job, each running to completion before the next starts; a failing
call raises its HTTPException before any write, so it leaves the job table
unchanged. -/
def runConsumeCalls (existing_ids : List String) (user_id import_log_id : String) :
    List ImportLog → List (List (List String) × String) →
      List (Except HttpError String)
  | _, [] => []
  | logs, (wex, pid) :: rest =>
    match createFromParsed logs existing_ids user_id import_log_id wex pid with
    | .ok (logs2, plan_id) =>
      .ok plan_id :: runConsumeCalls existing_ids user_id import_log_id logs2 rest
    | .error e => .error e :: runConsumeCalls existing_ids user_id import_log_id logs rest

/-- Program points of the `process_parsing` background task
(`app/api/workout_plans.py`, lines 534-578): not yet started, after the
`processing` write, after the terminal write.  Each job gets exactly one
such task (`asyncio.create_task` at line 581). -/
inductive WorkerPhase where
  | created
  | running
  | done
deriving DecidableEq

/-- One import job together with its unique background worker. -/
structure JobSys where
  job : ImportLog
  phase : WorkerPhase
deriving DecidableEq

/-- The state right after `parse_workout_plan` committed the new `pending`
row and scheduled the task. -/
def initJobSys (id user_id raw_text : String) : JobSys :=
  { job := newImportLog id user_id raw_text, phase := .created }

/-- Atomic mutations of one import-job row, in the control-flow order of the
code: the worker's three status writes (each an attribute write plus commit)
and the one-shot plan link of `create_workout_plan_from_parsed`; polling via
`get_parse_status` performs no write, hence is no transition. -/
inductive JobStep : JobSys → JobSys → Prop where
  | markProcessing (s : JobSys) :
      s.phase = .created →
      JobStep s { job := { s.job with status := .processing }, phase := .running }
  | markCompleted (s : JobSys) (r : WorkoutPlanParseResponse) :
      s.phase = .running →
      JobStep s
        { job := { s.job with status := .completed, result := some r }, phase := .done }
  | markFailed (s : JobSys) (e : String) :
      s.phase = .running →
      JobStep s
        { job := { s.job with status := .failed, error := some e }, phase := .done }
  | linkPlan (s : JobSys) (pid : String) :
      s.job.workout_plan_id = none →
      JobStep s { job := { s.job with workout_plan_id := some pid }, phase := s.phase }

/-- Status ordering along the pipeline. -/
def statusRank : JobStatus → ℕ
  | .pending => 0
  | .processing => 1
  | .completed => 2
  | .failed => 2

/-- Terminal statuses. -/
def isTerminalStatus : JobStatus → Bool
  | .completed => true
  | .failed => true
  | .pending => false
  | .processing => false

/-- The transitions the state machine of the spec allows. -/
def allowedTransition (a b : JobStatus) : Prop :=
  a = b ∨ (a = .pending ∧ b = .processing) ∨
    (a = .processing ∧ b = .completed) ∨ (a = .processing ∧ b = .failed)

/-- Outcome of one `create_workout_plan_from_parsed` request in the
interleaving model of claim C4. -/
inductive LinkOutcome where
  | ok (plan_id : String)
  | alreadyLinked
deriving DecidableEq

/-- One in-flight `create_workout_plan_from_parsed` request for the same
job: the id of the plan it creates, whether it has passed the
`workout_plan_id is not None` guard (line 667), and its response once
finished. -/
structure ConsumeTask where
  plan_id : String
  passed_check : Bool
  outcome : Option LinkOutcome
deriving DecidableEq

/-- Shared state for concurrent consumption: the job's `workout_plan_id`
column plus the in-flight requests.  Each request runs in its own database
session (and possibly its own server process), so the guard read and the
linking write of different requests may interleave. -/
structure ConsumeSys where
  linked : Option String
  tasks : List ConsumeTask
deriving DecidableEq

/-- The two steps of a request: `check` evaluates the guard at line 667
against the current column value (responding 400 when it is set); `write`
performs the assignment and commit at lines 723-725 and responds 201. -/
inductive ConsumeOp where
  | check
  | write
deriving DecidableEq

/-- Execute one step of request number `i`. -/
def consumeStep (s : ConsumeSys) (i : ℕ) (op : ConsumeOp) : ConsumeSys :=
  match s.tasks[i]? with
  | none => s
  | some t =>
    if t.outcome.isSome then s
    else
      match op with
      | .check =>
        if t.passed_check then s
        else if s.linked.isSome then
          { s with tasks := s.tasks.set i { t with outcome := some .alreadyLinked } }
        else
          { s with tasks := s.tasks.set i { t with passed_check := true } }
      | .write =>
        if t.passed_check then
          { linked := some t.plan_id,
            tasks := s.tasks.set i { t with outcome := some (.ok t.plan_id) } }
        else s

/-- Run a schedule (one interleaving) of request steps. -/
def runSchedule (s : ConsumeSys) : List (ℕ × ConsumeOp) → ConsumeSys
  | [] => s
  | (i, op) :: rest => runSchedule (consumeStep s i op) rest

/-- Confidence level stored on a parsed exercise, if it was matched. -/
def itemLevel (it : ParsedExerciseItem) : Option ConfidenceLevel :=
  it.matched_exercise.map (fun m => m.confidence_level)

/-- Number of items in a list matched at the given confidence level. -/
def countLevel (items : List ParsedExerciseItem) (lvl : ConfidenceLevel) : ℕ :=
  (items.filter (fun it => itemLevel it == some lvl)).length

/-- Number of unmatched items in a list. -/
def countUnmatched (items : List ParsedExerciseItem) : ℕ :=
  (items.filter (fun it => it.matched_exercise == none)).length

/-- Number of exercises matched at the given level across all workouts. -/
def planCountLevel (ws : List ParsedWorkoutItem) (lvl : ConfidenceLevel) : ℕ :=
  (ws.map (fun w => countLevel w.exercises lvl)).sum

/-- Number of unmatched exercises across all workouts. -/
def planCountUnmatched (ws : List ParsedWorkoutItem) : ℕ :=
  (ws.map (fun w => countUnmatched w.exercises)).sum

/-- Total exercise count across all workouts. -/
def planTotalExercises (ws : List ParsedWorkoutItem) : ℕ :=
  (ws.map (fun w => w.exercises.length)).sum

/-- Incrementing the statistics counter selected by a confidence level. -/
def bumpLevel (stats : Stats) : ConfidenceLevel → Stats
  | .high => { stats with high := stats.high + 1 }
  | .medium => { stats with medium := stats.medium + 1 }
  | .low => { stats with low := stats.low + 1 }

/-- Concrete catalog exercise used by witnesses. -/
def squatExercise : Exercise :=
  { id := "e1", name := "Squat", primary_muscle_groups := ["quadriceps"],
    secondary_muscle_groups := some [] }

/-- Concrete one-exercise catalog used by witnesses. -/
def squatCatalog : List Exercise := [squatExercise]

/-- Concrete extracted exercise lacking a pre-resolved exercise id. -/
def squatExData : ExData :=
  { original_text := some "Squat", exercise_id := none, confidence := none,
    sets := none, rest_seconds := none, notes := none, sequence := some 0 }

/-- Concrete extracted exercise whose single set has `reps_min > reps_max`. -/
def invertedRepsExData : ExData :=
  { original_text := some "Squat", exercise_id := none, confidence := none,
    sets := some [{ reps_min := some 12, reps_max := some 8 }],
    rest_seconds := none, notes := none, sequence := some 0 }

/-- The three default set configurations (8-12 reps each). -/
def defaultSetConfigs : List SetConfig :=
  [{ set_number := 1, reps_min := 8, reps_max := 12 },
   { set_number := 2, reps_min := 8, reps_max := 12 },
   { set_number := 3, reps_min := 8, reps_max := 12 }]

/-- Concrete job system states used by the claim-C3 witness: a fresh job, -/
def jobS0 : JobSys := initJobSys "j1" "u1" "raw"

/-- the job after the worker's `processing` write, -/
def jobS1 : JobSys := { job := { jobS0.job with status := .processing }, phase := .running }

/-- an empty but well-formed parse result, -/
def jobR0 : WorkoutPlanParseResponse :=
  { parsed_plan :=
      { name := "Workout Plan", description := none, workouts := [], raw_text := "raw" }
    total_exercises := 0
    high_confidence_count := 0
    medium_confidence_count := 0
    low_confidence_count := 0
    unmatched_count := 0 }

/-- the job after the worker's `completed` write, -/
def jobS2 : JobSys :=
  { job := { jobS1.job with status := .completed, result := some jobR0 }, phase := .done }

/-- and the completed job after a later plan link. -/
def jobS3 : JobSys :=
  { job := { jobS2.job with workout_plan_id := some "p1" }, phase := jobS2.phase }

/-- Initial shared state for two concurrent consume requests on one job. -/
def consumeInit : ConsumeSys :=
  { linked := none
    tasks := [{ plan_id := "planA", passed_check := false, outcome := none },
              { plan_id := "planB", passed_check := false, outcome := none }] }

/-- The racy interleaving: both requests pass the guard before either
writes. -/
def racySchedule : List (ℕ × ConsumeOp) :=
  [(0, .check), (1, .check), (0, .write), (1, .write)]

/-- Concrete parsed exercise item (unmatched, default sets) used by
witnesses. -/
def unmatchedSquatItem : ParsedExerciseItem :=
  { matched_exercise := none, original_text := "Squat",
    set_configurations := defaultSetConfigs, rest_seconds := none,
    notes := none, sequence := 0, alternatives := [] }

/-- Concrete one-exercise LLM workout entry used by witnesses. -/
def dayOneWorkoutData : WorkoutData :=
  { name := some "Day 1", day_number := some 1, order_index := some 0,
    exercises := some [squatExData] }

/-- Concrete one-workout LLM result used by witnesses. -/
def dayOneLLMResult : LLMResult :=
  { name := none, description := none, workouts := some [dayOneWorkoutData] }

/-- The parsed workout the pipeline produces from `dayOneWorkoutData`. -/
def dayOneParsedWorkout : ParsedWorkoutItem :=
  { name := "Day 1", day_number := some 1, order_index := 0,
    exercises := [unmatchedSquatItem] }

/-- The full parse response produced from `dayOneLLMResult`. -/
def dayOneResponse : WorkoutPlanParseResponse :=
  { parsed_plan :=
      { name := "Workout Plan", description := none,
        workouts := [dayOneParsedWorkout], raw_text := "raw" }
    total_exercises := 1
    high_confidence_count := 0
    medium_confidence_count := 0
    low_confidence_count := 0
    unmatched_count := 1 }

/-! Helper lemmas about the job store. -/

theorem lookupLog_eq_none (logs : List ImportLog) (jid uid : String)
    (h : ∀ l ∈ logs, ¬ (l.id = jid ∧ l.user_id = uid)) :
    lookupLog logs jid uid = none := by
  unfold lookupLog
  rw [List.find?_eq_none]
  intro l hl
  simp only [Bool.and_eq_true, beq_iff_eq]
  exact h l hl

theorem createFromParsed_success (logs : List ImportLog) (existing_ids : List String)
    (uid jid : String) (wex : List (List String)) (pid : String) (log : ImportLog)
    (hfound : lookupLog logs jid uid = some log)
    (hunlinked : log.workout_plan_id = none)
    (hids : ∀ i ∈ wex.flatten, i ∈ existing_ids) :
    createFromParsed logs existing_ids uid jid wex pid = .ok (linkLog logs jid pid, pid) := by
  unfold createFromParsed
  rw [hfound]
  have h1 : log.workout_plan_id.isSome = false := by rw [hunlinked]; rfl
  have h2 : wex.flatten.any (fun i => decide (i ∉ existing_ids)) = false := by
    rw [List.any_eq_false]
    intro i hi
    simpa using hids i hi
  simp only [h1, h2, Bool.false_eq_true, if_false]

theorem createFromParsed_already (logs : List ImportLog) (existing_ids : List String)
    (uid jid : String) (wex : List (List String)) (pid : String) (log : ImportLog)
    (hfound : lookupLog logs jid uid = some log)
    (hlinked : log.workout_plan_id.isSome = true) :
    createFromParsed logs existing_ids uid jid wex pid =
      .error alreadyLinkedError := by
  unfold createFromParsed
  rw [hfound]
  simp only [hlinked, if_true]

theorem lookupLog_linkLog (logs : List ImportLog) (jid uid pid : String) :
    lookupLog (linkLog logs jid pid) jid uid =
      (lookupLog logs jid uid).map (fun l => { l with workout_plan_id := some pid }) := by
  induction logs with
  | nil => rfl
  | cons l rest ih =>
    by_cases hid : l.id = jid
    · by_cases huser : l.user_id = uid
      · simp [lookupLog, linkLog, List.find?_cons, hid, huser] at *
      · simp only [lookupLog, linkLog, List.map_cons] at *
        rw [if_pos hid]
        rw [List.find?_cons, List.find?_cons]
        have hp : (({ l with workout_plan_id := some pid } : ImportLog).id == jid &&
            ({ l with workout_plan_id := some pid } : ImportLog).user_id == uid) = false := by
          simp [huser]
        have hq : (l.id == jid && l.user_id == uid) = false := by simp [huser]
        simp only [hp, hq]
        exact ih
    · simp only [lookupLog, linkLog, List.map_cons] at *
      rw [if_neg hid]
      rw [List.find?_cons, List.find?_cons]
      have hq : (l.id == jid && l.user_id == uid) = false := by simp [hid]
      simp only [hq]
      exact ih

theorem runConsumeCalls_already (existing_ids : List String) (uid jid : String)
    (logs : List ImportLog) (log : ImportLog)
    (calls : List (List (List String) × String))
    (hfound : lookupLog logs jid uid = some log)
    (hlinked : log.workout_plan_id.isSome = true) :
    runConsumeCalls existing_ids uid jid logs calls =
      calls.map (fun _ => .error alreadyLinkedError) := by
  induction calls with
  | nil => rfl
  | cons c rest ih =>
    obtain ⟨wex, pid⟩ := c
    unfold runConsumeCalls
    rw [createFromParsed_already logs existing_ids uid jid wex pid log hfound hlinked]
    rw [List.map_cons]
    exact congrArg _ ih

/-- Claim C7: for every job id and every pair of distinct owners, a status
lookup by one owner of a job created by another owner returns the same
NotFound response as a lookup of a job id that does not exist at all — no
existence leakage across owners (`get_parse_status` filters on both id and
`user_id` and raises the same 404 in both cases). -/
theorem c7_owner_isolation (logs : List ImportLog) (jid uid jid2 : String)
    (hforeign : ∀ l ∈ logs, l.id = jid → l.user_id ≠ uid)
    (hmissing : ∀ l ∈ logs, l.id ≠ jid2) :
    getParseStatus logs jid uid =
      .error notFoundError ∧
    getParseStatus logs jid uid = getParseStatus logs jid2 uid := by
  have h1 : lookupLog logs jid uid = none :=
    lookupLog_eq_none _ _ _ (fun l hl hc => hforeign l hl hc.1 hc.2)
  have h2 : lookupLog logs jid2 uid = none :=
    lookupLog_eq_none _ _ _ (fun l hl hc => hmissing l hl hc.1)
  constructor
  · simp [getParseStatus, h1]
  · simp [getParseStatus, h1, h2]

/-- Witness for C7: a job of user `alice` polled by `bob` is indistinguishable
from an absent job. -/
theorem c7_owner_isolation_witness :
    getParseStatus [newImportLog "j1" "alice" "some text"] "j1" "bob" =
      .error notFoundError ∧
    getParseStatus [newImportLog "j1" "alice" "some text"] "j1" "bob" =
      getParseStatus [newImportLog "j1" "alice" "some text"] "j2" "bob" :=
  c7_owner_isolation _ _ _ _ (by decide) (by decide)

/-- Claim C9: `create_workout_plan_from_parsed` never inspects the job's
status: any job owned by the caller whose `workout_plan_id` is unset links
successfully even when the job is not `completed` (the hypothesis
underscored status hypothesis is deliberately unused — no guard reads the status). -/
theorem c9_consume_ignores_status (logs : List ImportLog) (existing_ids : List String)
    (uid jid : String) (wex : List (List String)) (pid : String) (log : ImportLog)
    (hfound : lookupLog logs jid uid = some log)
    (_hstatus : log.status ≠ .completed)
    (hunlinked : log.workout_plan_id = none)
    (hids : ∀ i ∈ wex.flatten, i ∈ existing_ids) :
    createFromParsed logs existing_ids uid jid wex pid = .ok (linkLog logs jid pid, pid) :=
  createFromParsed_success logs existing_ids uid jid wex pid log hfound hunlinked hids

/-- Witness for C9: a still-`pending` job is consumed successfully. -/
theorem c9_consume_ignores_status_witness :
    createFromParsed [newImportLog "j1" "u1" "raw"] ["e1"] "u1" "j1" [["e1"]] "p1" =
      .ok (linkLog [newImportLog "j1" "u1" "raw"] "j1" "p1", "p1") :=
  c9_consume_ignores_status _ _ _ _ _ _ (newImportLog "j1" "u1" "raw")
    (by decide) (by decide) (by decide) (by decide)

/-- Claim C4 counterexample: the guard at line 667 and the write at line 723
of `create_workout_plan_from_parsed` are separate database operations on
separate sessions with no locking, so two concurrent requests may
interleave.  Under the schedule check-A, check-B, write-A, write-B both
requests finish with 201 Ok and the job's `workout_plan_id` is written
twice — first "planA", then overwritten by "planB" — refuting "every
subsequent call fails with AlreadyLinked, regardless of concurrency" and
"linked_plan_id is set exactly once". -/
theorem c4_counterexample :
    (runSchedule consumeInit racySchedule).tasks.map (fun t => t.outcome) =
      [some (.ok "planA"), some (.ok "planB")] ∧
    (runSchedule consumeInit (racySchedule.take 3)).linked = some "planA" ∧
    (runSchedule consumeInit racySchedule).linked = some "planB" :=
  ⟨rfl, rfl, rfl⟩

/-- Claim C4 amended: when calls to `create_workout_plan_from_parsed` for
one job do not interleave, the first call (on an owned, not-yet-linked job
with valid exercise ids) succeeds and links the plan, and every subsequent
call fails with the already-linked 400 error; under concurrent interleaving
the code gives no such guarantee (see the counterexample). -/
theorem c4_sequential_one_shot (logs : List ImportLog) (existing_ids : List String)
    (uid jid : String) (log : ImportLog) (wex1 : List (List String)) (pid1 : String)
    (calls : List (List (List String) × String))
    (hfound : lookupLog logs jid uid = some log)
    (hunlinked : log.workout_plan_id = none)
    (hids : ∀ i ∈ wex1.flatten, i ∈ existing_ids) :
    runConsumeCalls existing_ids uid jid logs ((wex1, pid1) :: calls) =
      .ok pid1 :: calls.map (fun _ => .error alreadyLinkedError) := by
  unfold runConsumeCalls
  rw [createFromParsed_success logs existing_ids uid jid wex1 pid1 log hfound hunlinked hids]
  have hfound2 : lookupLog (linkLog logs jid pid1) jid uid =
      some { log with workout_plan_id := some pid1 } := by
    rw [lookupLog_linkLog, hfound]; rfl
  exact congrArg _ (runConsumeCalls_already existing_ids uid jid _ _ calls hfound2 rfl)

/-- Witness for the amended C4: two sequential consume calls on a fresh job
give Ok then AlreadyLinked. -/
theorem c4_sequential_one_shot_witness :
    runConsumeCalls ["e1"] "u1" "j1" [newImportLog "j1" "u1" "raw"]
      [([["e1"]], "p1"), ([["e1"]], "p2")] =
      [.ok "p1", .error alreadyLinkedError] := by
  have h := c4_sequential_one_shot [newImportLog "j1" "u1" "raw"] ["e1"] "u1" "j1"
    (newImportLog "j1" "u1" "raw") [["e1"]] "p1" [([["e1"]], "p2")]
    (by decide) (by decide) (by decide)
  simpa using h

/-! Helper lemmas about set-configuration construction. -/

theorem mkSetConfig_ok (n a b : ℤ) (c : SetConfig) (h : mkSetConfig n a b = .ok c) :
    c.set_number = n ∧ c.reps_min = a ∧ c.reps_max = b ∧
      1 ≤ n ∧ n ≤ 50 ∧ 1 ≤ a ∧ a ≤ 200 ∧ 1 ≤ b ∧ b ≤ 200 := by
  unfold mkSetConfig at h
  split_ifs at h with h1 h2 h3
  injection h with h4
  subst h4
  push_neg at h1 h2 h3
  exact ⟨rfl, rfl, rfl, h1.1, h1.2, h2.1, h2.2, h3.1, h3.2⟩

theorem mkSetConfigs_ok (l : List SetData) : ∀ (i : ℕ) (cfgs : List SetConfig),
    mkSetConfigs i l = .ok cfgs →
    cfgs.length = l.length ∧
    ∀ k (hk : k < cfgs.length),
      (cfgs.get ⟨k, hk⟩).set_number = (i : ℤ) + k + 1 ∧
      1 ≤ (cfgs.get ⟨k, hk⟩).set_number ∧ (cfgs.get ⟨k, hk⟩).set_number ≤ 50 ∧
      1 ≤ (cfgs.get ⟨k, hk⟩).reps_min ∧ (cfgs.get ⟨k, hk⟩).reps_min ≤ 200 ∧
      1 ≤ (cfgs.get ⟨k, hk⟩).reps_max ∧ (cfgs.get ⟨k, hk⟩).reps_max ≤ 200 := by
  induction l with
  | nil =>
    intro i cfgs h
    unfold mkSetConfigs at h
    cases h
    exact ⟨rfl, fun k hk => absurd hk (by simp)⟩
  | cons sd rest ih =>
    intro i cfgs h
    unfold mkSetConfigs at h
    cases hc : mkSetConfig ((i : ℤ) + 1) (sd.reps_min.getD 8) (sd.reps_max.getD 12) with
    | error e => rw [hc] at h; cases h
    | ok c =>
      rw [hc] at h
      cases hcs : mkSetConfigs (i + 1) rest with
      | error e => rw [hcs] at h; cases h
      | ok cs =>
        rw [hcs] at h
        simp only [Except.ok.injEq] at h
        subst h
        obtain ⟨hn, hmin, hmax, hn1, hn50, ha1, ha200, hb1, hb200⟩ :=
          mkSetConfig_ok _ _ _ _ hc
        obtain ⟨hlen, hrest⟩ := ih (i + 1) cs hcs
        refine ⟨by simp [hlen], ?_⟩
        intro k hk
        cases k with
        | zero =>
          refine ⟨?_, ?_, ?_, ?_, ?_, ?_, ?_⟩
          · show c.set_number = (i : ℤ) + ((0 : ℕ) : ℤ) + 1
            rw [hn]; push_cast; ring
          · show 1 ≤ c.set_number
            rw [hn]; exact hn1
          · show c.set_number ≤ 50
            rw [hn]; exact hn50
          · show 1 ≤ c.reps_min
            rw [hmin]; exact ha1
          · show c.reps_min ≤ 200
            rw [hmin]; exact ha200
          · show 1 ≤ c.reps_max
            rw [hmax]; exact hb1
          · show c.reps_max ≤ 200
            rw [hmax]; exact hb200
        | succ k =>
          have hk2 : k < cs.length := Nat.lt_of_succ_lt_succ hk
          obtain ⟨hnum, hp1, hp2, hp3, hp4, hp5, hp6⟩ := hrest k hk2
          refine ⟨?_, hp1, hp2, hp3, hp4, hp5, hp6⟩
          show (cs.get ⟨k, hk2⟩).set_number = (i : ℤ) + ((k + 1 : ℕ) : ℤ) + 1
          rw [hnum]
          push_cast
          ring

theorem selectSetsData_ne_nil (ex : ExData) : selectSetsData ex ≠ [] := by
  unfold selectSetsData
  cases hs : ex.sets with
  | none => simp [defaultSetsData]
  | some l =>
    cases l with
    | nil => simp [defaultSetsData]
    | cons a as => simp

theorem mkSetConfigs_default : mkSetConfigs 0 defaultSetsData = .ok defaultSetConfigs := rfl

/-- Decomposition of a successful `_build_exercise_from_llm` run into its
matching part and its set-configuration part. -/
theorem buildExerciseFromLLM_ok (exercise_map : List Exercise) (stats : Stats)
    (ex : ExData) (item : ParsedExerciseItem) (stats2 : Stats)
    (h : buildExerciseFromLLM exercise_map stats ex = .ok (item, stats2)) :
    mkSetConfigs 0 (selectSetsData ex) = .ok item.set_configurations ∧
    item.matched_exercise = (buildMatched exercise_map stats ex).1 ∧
    stats2 = (buildMatched exercise_map stats ex).2 ∧
    item.alternatives = [] ∧
    item.original_text = ex.original_text.getD "" := by
  unfold buildExerciseFromLLM at h
  cases hc : mkSetConfigs 0 (selectSetsData ex) with
  | error e => rw [hc] at h; cases h
  | ok cfgs =>
    rw [hc] at h
    simp only [Except.ok.injEq, Prod.mk.injEq] at h
    obtain ⟨hitem, hstats⟩ := h
    subst hitem
    subst hstats
    exact ⟨rfl, rfl, rfl, rfl, rfl⟩

/-- Claim C10: when the extraction data contains no sets array (key missing
or empty list), `_build_exercise_from_llm` substitutes exactly three sets
with reps 8-12 each, and does not fail. -/
theorem c10_default_sets (exercise_map : List Exercise) (stats : Stats) (ex : ExData)
    (hsets : ex.sets = none ∨ ex.sets = some []) :
    buildExerciseFromLLM exercise_map stats ex =
      .ok ({ matched_exercise := (buildMatched exercise_map stats ex).1
             original_text := ex.original_text.getD ""
             set_configurations := defaultSetConfigs
             rest_seconds := ex.rest_seconds
             notes := ex.notes
             sequence := ex.sequence.getD 0
             alternatives := [] },
           (buildMatched exercise_map stats ex).2) := by
  have hsel : selectSetsData ex = defaultSetsData := by
    rcases hsets with h | h <;> simp [selectSetsData, h]
  unfold buildExerciseFromLLM
  rw [hsel, mkSetConfigs_default]

/-- Witness for C10 at a concrete exercise with no sets key. -/
theorem c10_default_sets_witness :
    buildExerciseFromLLM squatCatalog Stats.init squatExData =
      .ok ({ matched_exercise := none, original_text := "Squat",
             set_configurations := defaultSetConfigs, rest_seconds := none,
             notes := none, sequence := 0, alternatives := [] },
           { high := 0, medium := 0, low := 0, unmatched := 1 }) := by
  have h := c10_default_sets squatCatalog Stats.init squatExData (Or.inl rfl)
  exact h

/-- Claim C8 counterexample: the pipeline accepts (and the `SetConfig`
validators pass) a set configuration with `reps_min = 12 > 8 = reps_max`;
no validator enforces `reps_min <= reps_max`. -/
theorem c8_counterexample :
    buildExerciseFromLLM [] Stats.init invertedRepsExData =
      .ok ({ matched_exercise := none, original_text := "Squat",
             set_configurations := [{ set_number := 1, reps_min := 12, reps_max := 8 }],
             rest_seconds := none, notes := none, sequence := 0, alternatives := [] },
           { high := 0, medium := 0, low := 0, unmatched := 1 }) ∧
    ¬ ((12 : ℤ) ≤ 8) :=
  ⟨rfl, by decide⟩

/-- Claim C8 amended: every `ParsedExerciseItem` the pipeline produces has
at least one `SetConfig`; its `set_number`s are strictly increasing from 1
(the k-th configuration is numbered k+1) and every accepted value passes
the pydantic bounds (`set_number` in 1..50, reps in 1..200) — but
`reps_min <= reps_max` per set is not enforced (see the counterexample). -/
theorem c8_amended_sets (exercise_map : List Exercise) (stats : Stats) (ex : ExData)
    (item : ParsedExerciseItem) (stats2 : Stats)
    (h : buildExerciseFromLLM exercise_map stats ex = .ok (item, stats2)) :
    item.set_configurations ≠ [] ∧
    (∀ k (hk : k < item.set_configurations.length),
      (item.set_configurations.get ⟨k, hk⟩).set_number = (k : ℤ) + 1) ∧
    (∀ c ∈ item.set_configurations,
      1 ≤ c.set_number ∧ c.set_number ≤ 50 ∧ 1 ≤ c.reps_min ∧ c.reps_min ≤ 200 ∧
        1 ≤ c.reps_max ∧ c.reps_max ≤ 200) := by
  obtain ⟨hcfg, -, -, -, -⟩ := buildExerciseFromLLM_ok _ _ _ _ _ h
  obtain ⟨hlen, hall⟩ := mkSetConfigs_ok _ 0 _ hcfg
  refine ⟨?_, ?_, ?_⟩
  · intro hnil
    have := selectSetsData_ne_nil ex
    rw [hnil] at hlen
    exact this (List.eq_nil_of_length_eq_zero hlen.symm)
  · intro k hk
    have := (hall k hk).1
    simpa using this
  · intro c hc
    obtain ⟨⟨k, hk⟩, rfl⟩ := List.mem_iff_get.mp hc
    have := hall k hk
    exact ⟨this.2.1, this.2.2.1, this.2.2.2.1, this.2.2.2.2.1,
      this.2.2.2.2.2.1, this.2.2.2.2.2.2⟩

/-- Witness for the amended C8: a produced item has a nonempty set list. -/
theorem c8_amended_sets_witness : defaultSetConfigs ≠ [] :=
  (c8_amended_sets squatCatalog Stats.init squatExData
    { matched_exercise := none, original_text := "Squat",
      set_configurations := defaultSetConfigs, rest_seconds := none,
      notes := none, sequence := 0, alternatives := [] }
    { high := 0, medium := 0, low := 0, unmatched := 1 } rfl).1

/-! Helper lemmas about the matching branch of the parser. -/

theorem buildMatched_cases (exercise_map : List Exercise) (stats : Stats) (ex : ExData) :
    (llmResolved exercise_map ex = false ∧
      buildMatched exercise_map stats ex =
        (none, { stats with unmatched := stats.unmatched + 1 })) ∨
    (∃ exercise : Exercise, llmResolved exercise_map ex = true ∧
      buildMatched exercise_map stats ex =
        (some { exercise_id := exercise.id
                exercise_name := exercise.name
                original_text := ex.original_text.getD ""
                confidence := ex.confidence.getD 0
                confidence_level := getConfidenceLevel (ex.confidence.getD 0)
                primary_muscle_groups := exercise.primary_muscle_groups
                secondary_muscle_groups := exercise.secondary_muscle_groups.getD [] },
         bumpLevel stats (getConfidenceLevel (ex.confidence.getD 0)))) := by
  unfold buildMatched llmResolved
  cases hid : ex.exercise_id with
  | none => exact Or.inl ⟨rfl, rfl⟩
  | some eid =>
    by_cases he : eid = ""
    · subst he
      exact Or.inl ⟨by simp, by simp⟩
    · cases hget : dictGetById exercise_map eid with
      | none => exact Or.inl ⟨by simp [he, hget], by simp [he, hget]⟩
      | some exercise =>
        by_cases hc : (70 : ℚ) / 100 ≤ ex.confidence.getD 0
        · refine Or.inr ⟨exercise, by simp [he, hget, hc], ?_⟩
          simp only [he, hget, hc, ne_eq, not_false_eq_true, if_true, if_pos]
          by_cases h90 : (90 : ℚ) / 100 ≤ ex.confidence.getD 0
          · simp [h90, getConfidenceLevel, exercise_match_high_threshold, bumpLevel]
          · by_cases h80 : (80 : ℚ) / 100 ≤ ex.confidence.getD 0
            · simp [h90, h80, getConfidenceLevel, exercise_match_high_threshold,
                exercise_match_threshold, bumpLevel]
            · simp [h90, h80, getConfidenceLevel, exercise_match_high_threshold,
                exercise_match_threshold, bumpLevel]
        · exact Or.inl ⟨by simp [he, hget, hc], by simp [he, hget, hc]⟩

/-- Claim C1 amended theorem: the worker never calls the Exercise Matcher —
for every extracted exercise, a successful `_build_exercise_from_llm` run
attaches an empty `alternatives` list; `matched_exercise` is `None` exactly
when the adapter-supplied exercise id is missing, empty, unknown to the
catalog, or its adapter-supplied confidence is below the 0.70 floor
(`llmResolved`); and an exercise lacking a pre-resolved id is recorded as
unmatched with the unmatched counter incremented. -/
theorem c1_amended_no_matcher (exercise_map : List Exercise) (stats : Stats) (ex : ExData)
    (item : ParsedExerciseItem) (stats2 : Stats)
    (h : buildExerciseFromLLM exercise_map stats ex = .ok (item, stats2)) :
    item.alternatives = [] ∧
    (item.matched_exercise = none ↔ llmResolved exercise_map ex = false) ∧
    (ex.exercise_id = none →
      item.matched_exercise = none ∧
      stats2 = { stats with unmatched := stats.unmatched + 1 }) := by
  obtain ⟨-, hmatch, hstats, halts, -⟩ := buildExerciseFromLLM_ok _ _ _ _ _ h
  rcases buildMatched_cases exercise_map stats ex with ⟨hres, heq⟩ | ⟨e2, hres, heq⟩
  · rw [heq] at hmatch hstats
    refine ⟨halts, ?_, fun _ => ⟨by simpa using hmatch, by simpa using hstats⟩⟩
    simp [hmatch, hres]
  · rw [heq] at hmatch hstats
    refine ⟨halts, ?_, ?_⟩
    · constructor
      · intro hnone
        rw [hmatch] at hnone
        cases hnone
      · intro hfalse
        rw [hres] at hfalse
        cases hfalse
    · intro hid
      exfalso
      unfold llmResolved at hres
      rw [hid] at hres
      cases hres

/-- Witness for the amended C1 at the concrete unmatched exercise. -/
theorem c1_amended_no_matcher_witness :
    ({ matched_exercise := none, original_text := "Squat",
       set_configurations := defaultSetConfigs, rest_seconds := none,
       notes := none, sequence := 0, alternatives := [] } :
        ParsedExerciseItem).matched_exercise = none ∧
    ({ high := 0, medium := 0, low := 0, unmatched := 1 } : Stats) =
      { Stats.init with unmatched := Stats.init.unmatched + 1 } :=
  (c1_amended_no_matcher squatCatalog Stats.init squatExData _ _ rfl).2.2 rfl

/-! Evaluation of the similarity scorer on identical strings. -/

theorem indelDist_self (xs : List Char) : indelDist xs xs = 0 := by
  induction xs with
  | nil => simp [indelDist]
  | cons x xs ih => simp [indelDist, ih]

theorem fuzzSimilarity_self (s : String) : fuzzSimilarity s s = 100 := by
  show (if s.data.length + s.data.length = 0 then (100 : ℚ)
    else 100 * (((s.data.length : ℚ) + s.data.length) - indelDist s.data s.data) /
      ((s.data.length : ℚ) + s.data.length)) = 100
  rw [indelDist_self]
  by_cases h : s.data.length + s.data.length = 0
  · rw [if_pos h]
  · rw [if_neg h]
    have hq : ((s.data.length : ℚ) + s.data.length) ≠ 0 := by
      have h2 : ((s.data.length + s.data.length : ℕ) : ℚ) ≠ 0 := Nat.cast_ne_zero.mpr h
      push_cast at h2
      exact h2
    rw [Nat.cast_zero, sub_zero, mul_div_assoc, div_self hq, mul_one]

theorem tokenSortSimilarity_self (s : String) : tokenSortSimilarity s s = 100 :=
  fuzzSimilarity_self (tokenSort s)

theorem matchExercise_squat :
    matchExercise squatCatalog "Squat" 5 = (some squatExercise, 1, []) := by
  have hpe : processExtract tokenSortSimilarity "Squat" (dictKeys [squatExercise]) 5 =
      [("Squat", (100 : ℚ))] := by
    show (List.insertionSort scoreGE ((dictKeys [squatExercise]).map
        (fun c => (c, tokenSortSimilarity "Squat" c)))).take 5 = [("Squat", (100 : ℚ))]
    rw [show (dictKeys [squatExercise]).map (fun c => (c, tokenSortSimilarity "Squat" c)) =
      [("Squat", tokenSortSimilarity "Squat" "Squat")] from rfl]
    rw [tokenSortSimilarity_self]
    rfl
  show matchExerciseWith tokenSortSimilarity exercise_match_low_threshold
      [squatExercise] "Squat" 5 = (some squatExercise, 1, [])
  unfold matchExerciseWith
  dsimp only
  rw [hpe]
  dsimp only
  rw [if_pos (show exercise_match_low_threshold ≤ (100 : ℚ) / 100 by
    norm_num [exercise_match_low_threshold])]
  rw [show dictGet [squatExercise] "Squat" = some squatExercise from rfl]
  norm_num

/-- Claim C1 counterexample: extracted exercise "Squat" lacks a pre-resolved
id; the worker does not invoke the Matcher — it emits the item unmatched
with empty alternatives and bumps the unmatched counter — although the
Exercise Matcher itself, on the same text and catalog, returns the catalog
exercise with normalized score 1, at or above the 0.70 low-confidence
floor.  So `matched_exercise = None` does not coincide with "no catalog
candidate scored at or above the low-confidence floor". -/
theorem c1_counterexample :
    buildExerciseFromLLM squatCatalog Stats.init squatExData =
      .ok ({ matched_exercise := none, original_text := "Squat",
             set_configurations := defaultSetConfigs, rest_seconds := none,
             notes := none, sequence := 0, alternatives := [] },
           { high := 0, medium := 0, low := 0, unmatched := 1 }) ∧
    matchExercise squatCatalog "Squat" 5 = (some squatExercise, 1, []) ∧
    exercise_match_low_threshold ≤ 1 :=
  ⟨rfl, matchExercise_squat, by norm_num [exercise_match_low_threshold]⟩

/-- Claim C5 amended theorem: `parse_workout_text` locates the JSON content
by stripping code fences (`stripFences`) and parses it in a single attempt
(the function consumes exactly one call outcome — no internal retry); a
transport failure (network error, timeout, or non-2xx, all raised by the
HTTP client) and an unparsable JSON body are each surfaced as the one
wrapped exception message; a successfully parsed JSON object is returned
as-is — the adapter performs no shape validation, so JSON missing required
fields is returned successfully rather than raising (see counterexample). -/
theorem c5_amended_single_error (jsonLoads : String → Except String LLMResult)
    (callOutcome : Except String String) :
    (∀ e, callOutcome = .error e →
      parseWorkoutText jsonLoads callOutcome =
        .error ("Failed to parse workout plan: " ++ e)) ∧
    (∀ content e, callOutcome = .ok content →
      jsonLoads (stripFences content) = .error e →
      parseWorkoutText jsonLoads callOutcome =
        .error ("Failed to parse workout plan: " ++
          ("Invalid JSON response from LLM: " ++ e))) ∧
    (∀ content d, callOutcome = .ok content →
      jsonLoads (stripFences content) = .ok d →
      parseWorkoutText jsonLoads callOutcome = .ok d) := by
  refine ⟨?_, ?_, ?_⟩
  · intro e he
    subst he
    rfl
  · intro content e hc hj
    subst hc
    unfold parseWorkoutText extractJson
    dsimp only
    rw [hj]
  · intro content d hc hj
    subst hc
    unfold parseWorkoutText extractJson
    dsimp only
    rw [hj]

/-- Witness for the amended C5: a transport error surfaces as one wrapped
message. -/
theorem c5_amended_single_error_witness :
    parseWorkoutText jsonLoadsEmptyObj (.error "timeout") =
      .error ("Failed to parse workout plan: " ++ "timeout") :=
  (c5_amended_single_error jsonLoadsEmptyObj (.error "timeout")).1 "timeout" rfl

/-- Claim C5 counterexample: the adapter does not validate the draft shape.
The response consisting of the empty JSON object (which lacks every
required field, including `workouts`) parses successfully and is returned
as a draft instead of being surfaced as an ExtractionError, and the
downstream parser turns it into an empty completed plan. -/
theorem c5_counterexample :
    parseWorkoutText jsonLoadsEmptyObj (.ok "\x7b\x7d") = .ok emptyDraft ∧
    parseWorkoutPlanCore [] "raw" emptyDraft = .ok jobR0 :=
  ⟨rfl, rfl⟩

/-! Helper lemmas for the job state machine (claim C3). -/

theorem jobSys_phase_status (id uid txt : String) (s : JobSys)
    (h : Relation.ReflTransGen JobStep (initJobSys id uid txt) s) :
    (s.phase = .created → s.job.status = .pending) ∧
    (s.phase = .running → s.job.status = .processing) ∧
    (s.phase = .done → isTerminalStatus s.job.status = true) := by
  induction h with
  | refl =>
    refine ⟨fun _ => rfl, fun hr => ?_, fun hd => ?_⟩
    · cases hr
    · cases hd
  | tail hab hbc ih =>
    cases hbc with
    | markProcessing hp =>
      refine ⟨fun hc => ?_, fun _ => rfl, fun hd => ?_⟩
      · cases hc
      · cases hd
    | markCompleted r hp =>
      refine ⟨fun hc => ?_, fun hr => ?_, fun _ => rfl⟩
      · cases hc
      · cases hr
    | markFailed e hp =>
      refine ⟨fun hc => ?_, fun hr => ?_, fun _ => rfl⟩
      · cases hc
      · cases hr
    | linkPlan pid hp =>
      exact ⟨ih.1, ih.2.1, ih.2.2⟩

theorem terminal_phase_done (id uid txt : String) (s : JobSys)
    (h : Relation.ReflTransGen JobStep (initJobSys id uid txt) s)
    (ht : isTerminalStatus s.job.status = true) : s.phase = .done := by
  obtain ⟨h1, h2, -⟩ := jobSys_phase_status id uid txt s h
  cases hp : s.phase
  · rw [h1 hp] at ht; cases ht
  · rw [h2 hp] at ht; cases ht
  · rfl

theorem jobStep_done_stable (s t : JobSys) (h : Relation.ReflTransGen JobStep s t)
    (hd : s.phase = .done) :
    t.phase = .done ∧ t.job.id = s.job.id ∧ t.job.status = s.job.status ∧
      t.job.result = s.job.result ∧ t.job.error = s.job.error := by
  induction h with
  | refl => exact ⟨hd, rfl, rfl, rfl, rfl⟩
  | tail hab hbc ih =>
    obtain ⟨hph, hid, hst, hres, herr⟩ := ih
    cases hbc with
    | markProcessing hp => rw [hph] at hp; cases hp
    | markCompleted r hp => rw [hph] at hp; cases hp
    | markFailed e hp => rw [hph] at hp; cases hp
    | linkPlan pid hp => exact ⟨hph, hid, hst, hres, herr⟩

theorem jobStep_allowed (id uid txt : String) (u v : JobSys)
    (hu : Relation.ReflTransGen JobStep (initJobSys id uid txt) u)
    (hs : JobStep u v) : allowedTransition u.job.status v.job.status := by
  obtain ⟨h1, h2, -⟩ := jobSys_phase_status id uid txt u hu
  cases hs with
  | markProcessing hp => exact Or.inr (Or.inl ⟨h1 hp, rfl⟩)
  | markCompleted r hp => exact Or.inr (Or.inr (Or.inl ⟨h2 hp, rfl⟩))
  | markFailed e hp => exact Or.inr (Or.inr (Or.inr ⟨h2 hp, rfl⟩))
  | linkPlan pid hp => exact Or.inl rfl

theorem statusRank_le_of_allowed (a b : JobStatus) (h : allowedTransition a b) :
    statusRank a ≤ statusRank b := by
  rcases h with h | ⟨h1, h2⟩ | ⟨h1, h2⟩ | ⟨h1, h2⟩ <;> subst_vars <;> simp [statusRank]

theorem statusRank_mono (id uid txt : String) (s t : JobSys)
    (hreach : Relation.ReflTransGen JobStep (initJobSys id uid txt) s)
    (hst : Relation.ReflTransGen JobStep s t) :
    statusRank s.job.status ≤ statusRank t.job.status := by
  induction hst with
  | refl => exact le_refl _
  | tail hab hbc ih =>
    refine le_trans ih (statusRank_le_of_allowed _ _ ?_)
    exact jobStep_allowed id uid txt _ _ (Relation.ReflTransGen.trans hreach hab) hbc

/-- Claim C3: for one import job, along every execution of the system (the
job's unique background worker plus any number of plan links; polling reads
mutate nothing), the status is monotone along
pending → processing → (completed | failed); every single step is one of
the allowed transitions of that diagram; and once the status is terminal it
never changes again and the `get_parse_status` response stays identical. -/
theorem c3_terminal_monotone (id uid txt : String) (s t : JobSys)
    (hreach : Relation.ReflTransGen JobStep (initJobSys id uid txt) s)
    (hst : Relation.ReflTransGen JobStep s t) :
    statusRank s.job.status ≤ statusRank t.job.status ∧
    (∀ v, JobStep s v → allowedTransition s.job.status v.job.status) ∧
    (isTerminalStatus s.job.status = true →
      t.job.status = s.job.status ∧ statusResponseOf t.job = statusResponseOf s.job) := by
  refine ⟨?_, ?_, ?_⟩
  · exact statusRank_mono id uid txt s t hreach hst
  · intro v hv
    exact jobStep_allowed id uid txt s v hreach hv
  · intro ht
    have hd : s.phase = .done := terminal_phase_done id uid txt s hreach ht
    obtain ⟨-, hid, hst2, hres, herr⟩ := jobStep_done_stable s t hst hd
    refine ⟨hst2, ?_⟩
    unfold statusResponseOf
    rw [hid, hst2, hres, herr]

/-- Witness for C3: a concrete completed job, later linked to a plan, keeps
its status and status response unchanged. -/
theorem c3_terminal_monotone_witness :
    jobS3.job.status = jobS2.job.status ∧
    statusResponseOf jobS3.job = statusResponseOf jobS2.job := by
  have hreach : Relation.ReflTransGen JobStep (initJobSys "j1" "u1" "raw") jobS2 :=
    Relation.ReflTransGen.tail
      (Relation.ReflTransGen.tail Relation.ReflTransGen.refl
        (JobStep.markProcessing jobS0 rfl))
      (JobStep.markCompleted jobS1 jobR0 rfl)
  have hst : Relation.ReflTransGen JobStep jobS2 jobS3 :=
    Relation.ReflTransGen.tail Relation.ReflTransGen.refl
      (JobStep.linkPlan jobS2 "p1" rfl)
  exact (c3_terminal_monotone "j1" "u1" "raw" jobS2 jobS3 hreach hst).2.2 rfl

/-! Helper lemmas for the confidence statistics (claim C2). -/

theorem countLevel_cons (it : ParsedExerciseItem) (items : List ParsedExerciseItem)
    (lvl : ConfidenceLevel) :
    countLevel (it :: items) lvl =
      (if itemLevel it = some lvl then 1 else 0) + countLevel items lvl := by
  unfold countLevel
  rw [List.filter_cons]
  by_cases h : itemLevel it = some lvl
  · simp [h]
    omega
  · simp [h]

theorem countUnmatched_cons (it : ParsedExerciseItem) (items : List ParsedExerciseItem) :
    countUnmatched (it :: items) =
      (if it.matched_exercise = none then 1 else 0) + countUnmatched items := by
  unfold countUnmatched
  rw [List.filter_cons]
  by_cases h : it.matched_exercise = none
  · simp [h]
    omega
  · simp [h]

theorem bumpLevel_fields (stats : Stats) (lvl : ConfidenceLevel) :
    (bumpLevel stats lvl).high = stats.high + (if lvl = .high then 1 else 0) ∧
    (bumpLevel stats lvl).medium = stats.medium + (if lvl = .medium then 1 else 0) ∧
    (bumpLevel stats lvl).low = stats.low + (if lvl = .low then 1 else 0) ∧
    (bumpLevel stats lvl).unmatched = stats.unmatched := by
  cases lvl <;> simp [bumpLevel]

theorem buildExerciseFromLLM_stats (exercise_map : List Exercise) (stats : Stats)
    (ex : ExData) (item : ParsedExerciseItem) (stats2 : Stats)
    (h : buildExerciseFromLLM exercise_map stats ex = .ok (item, stats2)) :
    (∀ m, item.matched_exercise = some m →
      m.confidence_level = getConfidenceLevel m.confidence) ∧
    stats2.high = stats.high + (if itemLevel item = some .high then 1 else 0) ∧
    stats2.medium = stats.medium + (if itemLevel item = some .medium then 1 else 0) ∧
    stats2.low = stats.low + (if itemLevel item = some .low then 1 else 0) ∧
    stats2.unmatched = stats.unmatched +
      (if item.matched_exercise = none then 1 else 0) := by
  obtain ⟨-, hmatch, hstats, -, -⟩ := buildExerciseFromLLM_ok _ _ _ _ _ h
  rcases buildMatched_cases exercise_map stats ex with ⟨-, heq⟩ | ⟨e2, -, heq⟩
  · rw [heq] at hmatch hstats
    dsimp only at hmatch hstats
    subst hstats
    refine ⟨?_, ?_, ?_, ?_, ?_⟩
    · intro m hm
      rw [hmatch] at hm
      cases hm
    · simp [itemLevel, hmatch]
    · simp [itemLevel, hmatch]
    · simp [itemLevel, hmatch]
    · simp [hmatch]
  · rw [heq] at hmatch hstats
    dsimp only at hmatch hstats
    subst hstats
    have hil : itemLevel item = some (getConfidenceLevel (ex.confidence.getD 0)) := by
      rw [itemLevel, hmatch]
      rfl
    obtain ⟨bh, bm, bl, bu⟩ :=
      bumpLevel_fields stats (getConfidenceLevel (ex.confidence.getD 0))
    refine ⟨?_, ?_, ?_, ?_, ?_⟩
    · intro m hm
      rw [hmatch] at hm
      injection hm with hm2
      rw [← hm2]
    · rw [bh, hil]; simp
    · rw [bm, hil]; simp
    · rw [bl, hil]; simp
    · rw [bu, hmatch]; simp

theorem processExercises_stats (exercise_map : List Exercise) (exs : List ExData) :
    ∀ (stats : Stats) (items : List ParsedExerciseItem) (stats2 : Stats),
    processExercises exercise_map stats exs = .ok (items, stats2) →
    stats2.high = stats.high + countLevel items .high ∧
    stats2.medium = stats.medium + countLevel items .medium ∧
    stats2.low = stats.low + countLevel items .low ∧
    stats2.unmatched = stats.unmatched + countUnmatched items ∧
    ∀ it ∈ items, ∀ m, it.matched_exercise = some m →
      m.confidence_level = getConfidenceLevel m.confidence := by
  induction exs with
  | nil =>
    intro stats items stats2 h
    unfold processExercises at h
    simp only [Except.ok.injEq, Prod.mk.injEq] at h
    obtain ⟨hitems, hstats⟩ := h
    subst hitems
    subst hstats
    simp [countLevel, countUnmatched]
  | cons ex rest ih =>
    intro stats items stats2 h
    unfold processExercises at h
    cases hb : buildExerciseFromLLM exercise_map stats ex with
    | error e => rw [hb] at h; cases h
    | ok p =>
      obtain ⟨item, stats1⟩ := p
      rw [hb] at h
      dsimp only at h
      cases hr : processExercises exercise_map stats1 rest with
      | error e => rw [hr] at h; cases h
      | ok q =>
        obtain ⟨items1, stats2b⟩ := q
        rw [hr] at h
        dsimp only at h
        simp only [Except.ok.injEq, Prod.mk.injEq] at h
        obtain ⟨hitems, hstats⟩ := h
        subst hstats
        subst hitems
        obtain ⟨hc0, bh, bm, bl, bu⟩ := buildExerciseFromLLM_stats _ _ _ _ _ hb
        obtain ⟨i1, i2, i3, i4, i5⟩ := ih stats1 items1 stats2b hr
        refine ⟨?_, ?_, ?_, ?_, ?_⟩
        · rw [i1, bh, countLevel_cons]; ring
        · rw [i2, bm, countLevel_cons]; ring
        · rw [i3, bl, countLevel_cons]; ring
        · rw [i4, bu, countUnmatched_cons]; ring
        · intro it hit m hm
          rcases List.mem_cons.mp hit with rfl | hmem
          · exact hc0 m hm
          · exact i5 it hmem m hm

theorem processWorkout_ok (exercise_map : List Exercise) (stats : Stats)
    (wd : WorkoutData) (pw : ParsedWorkoutItem) (stats1 : Stats)
    (h : processWorkout exercise_map stats wd = .ok (pw, stats1)) :
    processExercises exercise_map stats (wd.exercises.getD []) =
      .ok (pw.exercises, stats1) := by
  unfold processWorkout at h
  cases he : processExercises exercise_map stats (wd.exercises.getD []) with
  | error e => rw [he] at h; cases h
  | ok q =>
    obtain ⟨items, stats1b⟩ := q
    rw [he] at h
    dsimp only at h
    simp only [Except.ok.injEq, Prod.mk.injEq] at h
    obtain ⟨hpw, hstats⟩ := h
    subst hstats
    rw [← hpw]

theorem planCountLevel_cons (w : ParsedWorkoutItem) (ws : List ParsedWorkoutItem)
    (lvl : ConfidenceLevel) :
    planCountLevel (w :: ws) lvl = countLevel w.exercises lvl + planCountLevel ws lvl := by
  simp [planCountLevel]

theorem planCountUnmatched_cons (w : ParsedWorkoutItem) (ws : List ParsedWorkoutItem) :
    planCountUnmatched (w :: ws) = countUnmatched w.exercises + planCountUnmatched ws := by
  simp [planCountUnmatched]

theorem planTotalExercises_cons (w : ParsedWorkoutItem) (ws : List ParsedWorkoutItem) :
    planTotalExercises (w :: ws) = w.exercises.length + planTotalExercises ws := by
  simp [planTotalExercises]

theorem processWorkouts_stats (exercise_map : List Exercise) (wds : List WorkoutData) :
    ∀ (stats : Stats) (total : ℕ) (pws : List ParsedWorkoutItem)
      (stats2 : Stats) (total2 : ℕ),
    processWorkouts exercise_map stats total wds = .ok (pws, stats2, total2) →
    stats2.high = stats.high + planCountLevel pws .high ∧
    stats2.medium = stats.medium + planCountLevel pws .medium ∧
    stats2.low = stats.low + planCountLevel pws .low ∧
    stats2.unmatched = stats.unmatched + planCountUnmatched pws ∧
    total2 = total + planTotalExercises pws ∧
    ∀ w ∈ pws, ∀ it ∈ w.exercises, ∀ m, it.matched_exercise = some m →
      m.confidence_level = getConfidenceLevel m.confidence := by
  induction wds with
  | nil =>
    intro stats total pws stats2 total2 h
    unfold processWorkouts at h
    simp only [Except.ok.injEq, Prod.mk.injEq] at h
    obtain ⟨h1, h2, h3⟩ := h
    subst h1
    subst h2
    subst h3
    simp [planCountLevel, planCountUnmatched, planTotalExercises]
  | cons wd rest ih =>
    intro stats total pws stats2 total2 h
    unfold processWorkouts at h
    cases hw : processWorkout exercise_map stats wd with
    | error e => rw [hw] at h; cases h
    | ok p =>
      obtain ⟨pw, stats1⟩ := p
      rw [hw] at h
      dsimp only at h
      cases hr : processWorkouts exercise_map stats1 (total + pw.exercises.length) rest with
      | error e => rw [hr] at h; cases h
      | ok q =>
        obtain ⟨pws1, stats2b, total2b⟩ := q
        rw [hr] at h
        dsimp only at h
        simp only [Except.ok.injEq, Prod.mk.injEq] at h
        obtain ⟨hpws, hst, htot⟩ := h
        subst hpws
        subst hst
        subst htot
        have hpe := processWorkout_ok _ _ _ _ _ hw
        obtain ⟨e1, e2, e3, e4, e5⟩ :=
          processExercises_stats exercise_map _ stats pw.exercises stats1 hpe
        obtain ⟨i1, i2, i3, i4, i5, i6⟩ :=
          ih stats1 (total + pw.exercises.length) pws1 stats2b total2b hr
        refine ⟨?_, ?_, ?_, ?_, ?_, ?_⟩
        · rw [i1, e1, planCountLevel_cons]; ring
        · rw [i2, e2, planCountLevel_cons]; ring
        · rw [i3, e3, planCountLevel_cons]; ring
        · rw [i4, e4, planCountUnmatched_cons]; ring
        · rw [i5, planTotalExercises_cons]; ring
        · intro w hw2 it hit m hm
          rcases List.mem_cons.mp hw2 with rfl | hmem
          · exact e5 it hit m hm
          · exact i6 w hmem it hit m hm

theorem countParts (items : List ParsedExerciseItem) :
    countLevel items .high + countLevel items .medium + countLevel items .low +
      countUnmatched items = items.length := by
  induction items with
  | nil => simp [countLevel, countUnmatched]
  | cons it items ih =>
    rw [countLevel_cons, countLevel_cons, countLevel_cons, countUnmatched_cons,
      List.length_cons]
    cases hm : it.matched_exercise with
    | none => simp [itemLevel, hm]; omega
    | some m => cases hl : m.confidence_level <;> simp [itemLevel, hm, hl] <;> omega

theorem planCountParts (pws : List ParsedWorkoutItem) :
    planCountLevel pws .high + planCountLevel pws .medium + planCountLevel pws .low +
      planCountUnmatched pws = planTotalExercises pws := by
  induction pws with
  | nil => simp [planCountLevel, planCountUnmatched, planTotalExercises]
  | cons w ws ih =>
    rw [planCountLevel_cons, planCountLevel_cons, planCountLevel_cons,
      planCountUnmatched_cons, planTotalExercises_cons]
    have := countParts w.exercises
    omega

/-- Claim C2: for every completed parse, the four reported counters sum to
the total exercise count across all workouts; each counter equals the
cardinality of its bucket over the produced plan — so every exercise is
counted in exactly one bucket, matched exercises in the bucket selected by
their stored confidence under the configured thresholds
(`getConfidenceLevel`) and unmatched ones under `unmatched`. -/
theorem c2_confidence_partition (exercises : List Exercise) (text : String)
    (llm_result : LLMResult) (resp : WorkoutPlanParseResponse)
    (h : parseWorkoutPlanCore exercises text llm_result = .ok resp) :
    resp.high_confidence_count + resp.medium_confidence_count +
        resp.low_confidence_count + resp.unmatched_count = resp.total_exercises ∧
    resp.total_exercises = planTotalExercises resp.parsed_plan.workouts ∧
    resp.high_confidence_count = planCountLevel resp.parsed_plan.workouts .high ∧
    resp.medium_confidence_count = planCountLevel resp.parsed_plan.workouts .medium ∧
    resp.low_confidence_count = planCountLevel resp.parsed_plan.workouts .low ∧
    resp.unmatched_count = planCountUnmatched resp.parsed_plan.workouts ∧
    ∀ w ∈ resp.parsed_plan.workouts, ∀ it ∈ w.exercises, ∀ m,
      it.matched_exercise = some m →
        m.confidence_level = getConfidenceLevel m.confidence := by
  unfold parseWorkoutPlanCore at h
  cases hw : processWorkouts exercises Stats.init 0 (llm_result.workouts.getD []) with
  | error e => rw [hw] at h; cases h
  | ok q =>
    obtain ⟨pws, stats, total⟩ := q
    rw [hw] at h
    dsimp only at h
    simp only [Except.ok.injEq] at h
    subst h
    obtain ⟨i1, i2, i3, i4, i5, i6⟩ := processWorkouts_stats _ _ _ _ _ _ _ hw
    simp only [Stats.init] at i1 i2 i3 i4
    have hparts := planCountParts pws
    dsimp only
    refine ⟨?_, ?_, ?_, ?_, ?_, ?_, i6⟩ <;> omega

/-- Witness for C2: a one-workout, one-exercise (unmatched) parse result. -/
theorem c2_confidence_partition_witness :
    (0 : ℕ) + 0 + 0 + 1 = 1 ∧
    (1 : ℕ) = planTotalExercises [dayOneParsedWorkout] := by
  have h := c2_confidence_partition [] "raw" dayOneLLMResult dayOneResponse rfl
  exact ⟨h.1, h.2.1⟩

/-! Helper lemmas for the matcher contract (claim C6). -/

theorem dictGet_name (exs : List Exercise) (n : String) (e : Exercise)
    (h : dictGet exs n = some e) : e.name = n := by
  unfold dictGet at h
  have h2 := List.find?_some h
  simpa using h2

theorem insertKey_mem (ks : List String) (n m : String) :
    m ∈ insertKey ks n ↔ m ∈ ks ∨ m = n := by
  unfold insertKey
  by_cases h : n ∈ ks
  · rw [if_pos h]
    constructor
    · exact Or.inl
    · rintro (h1 | rfl)
      · exact h1
      · exact h
  · rw [if_neg h]
    simp [List.mem_append]

theorem insertKey_nodup (ks : List String) (n : String) (h : ks.Nodup) :
    (insertKey ks n).Nodup := by
  unfold insertKey
  by_cases hn : n ∈ ks
  · rwa [if_pos hn]
  · rw [if_neg hn]
    refine List.Nodup.append h (List.nodup_singleton n) ?_
    intro a ha hb
    rw [List.mem_singleton] at hb
    subst hb
    exact hn ha

theorem foldl_insertKey_nodup (exs : List Exercise) :
    ∀ ks : List String, ks.Nodup →
      (exs.foldl (fun ks e => insertKey ks e.name) ks).Nodup := by
  induction exs with
  | nil => intro ks h; exact h
  | cons e rest ih =>
    intro ks h
    exact ih _ (insertKey_nodup ks e.name h)

theorem dictKeys_nodup (exs : List Exercise) : (dictKeys exs).Nodup :=
  foldl_insertKey_nodup exs [] List.nodup_nil

theorem foldl_insertKey_mem (exs : List Exercise) :
    ∀ (ks : List String) (m : String),
      m ∈ exs.foldl (fun ks e => insertKey ks e.name) ks ↔
        m ∈ ks ∨ ∃ e ∈ exs, e.name = m := by
  induction exs with
  | nil => intro ks m; simp
  | cons e rest ih =>
    intro ks m
    rw [List.foldl_cons, ih, insertKey_mem]
    constructor
    · rintro ((h1 | h2) | ⟨e2, he2, rfl⟩)
      · exact Or.inl h1
      · exact Or.inr ⟨e, List.mem_cons_self e rest, h2.symm⟩
      · exact Or.inr ⟨e2, List.mem_cons_of_mem e he2, rfl⟩
    · rintro (h1 | ⟨e2, he2, rfl⟩)
      · exact Or.inl (Or.inl h1)
      · rcases List.mem_cons.mp he2 with rfl | hmem
        · exact Or.inl (Or.inr rfl)
        · exact Or.inr ⟨e2, hmem, rfl⟩

theorem mem_dictKeys (exs : List Exercise) (m : String) :
    m ∈ dictKeys exs ↔ ∃ e ∈ exs, e.name = m := by
  rw [dictKeys, foldl_insertKey_mem]
  simp

theorem dictGet_isSome_of_mem_keys (exs : List Exercise) (n : String)
    (hex : n ∈ dictKeys exs) : ∃ e, dictGet exs n = some e ∧ e.name = n := by
  obtain ⟨e, he, hn⟩ := (mem_dictKeys exs n).mp hex
  have h1 : (exs.reverse.find? (fun e => e.name = n)).isSome := by
    rw [List.find?_isSome]
    exact ⟨e, List.mem_reverse.mpr he, by simpa using hn⟩
  obtain ⟨e2, he2⟩ := Option.isSome_iff_exists.mp h1
  exact ⟨e2, he2, dictGet_name exs n e2 he2⟩

theorem processExtract_sorted (scorer : String → String → ℚ) (query : String)
    (choices : List String) (limit : ℕ) :
    (processExtract scorer query choices limit).Pairwise scoreGE := by
  unfold processExtract
  exact List.Pairwise.sublist (List.take_sublist _ _)
    (List.sorted_insertionSort scoreGE _)

theorem processExtract_keys_nodup (scorer : String → String → ℚ) (query : String)
    (choices : List String) (limit : ℕ) (h : choices.Nodup) :
    (processExtract scorer query choices limit).Pairwise (fun a b => a.1 ≠ b.1) := by
  unfold processExtract
  refine List.Pairwise.sublist (List.take_sublist _ _) ?_
  have hperm : List.Perm
      (List.insertionSort scoreGE (choices.map (fun c => (c, scorer query c))))
      (choices.map (fun c => (c, scorer query c))) := List.perm_insertionSort _ _
  have hmap : (choices.map (fun c => (c, scorer query c))).Pairwise
      (fun a b => a.1 ≠ b.1) := by
    rw [List.pairwise_map]
    exact h
  have hsym : Symmetric (fun a b : String × ℚ => a.1 ≠ b.1) := by
    intro a b hab
    exact Ne.symm hab
  exact (List.Perm.pairwise_iff (fun hab => hsym hab) hperm).mpr hmap

theorem processExtract_mem (scorer : String → String → ℚ) (query : String)
    (choices : List String) (limit : ℕ) (p : String × ℚ)
    (hp : p ∈ processExtract scorer query choices limit) :
    p.1 ∈ choices ∧ p.2 = scorer query p.1 := by
  unfold processExtract at hp
  have hp2 := (List.take_sublist _ _).subset hp
  have hp3 := ((List.perm_insertionSort scoreGE _).mem_iff).mp hp2
  obtain ⟨c, hc, rfl⟩ := List.mem_map.mp hp3
  exact ⟨hc, rfl⟩

theorem processExtract_length (scorer : String → String → ℚ) (query : String)
    (choices : List String) (limit : ℕ) :
    (processExtract scorer query choices limit).length ≤ limit := by
  unfold processExtract
  exact List.length_take_le _ _

theorem altEntry (low_threshold : ℚ) (exercises : List Exercise)
    (a : String × ℚ) (p : Exercise × ℚ)
    (hfa : (if low_threshold ≤ a.2 / 100 then
        (dictGet exercises a.1).map (fun e => (e, a.2 / 100)) else none) = some p) :
    low_threshold ≤ p.2 ∧ p.2 = a.2 / 100 ∧ dictGet exercises a.1 = some p.1 := by
  by_cases hcond : low_threshold ≤ a.2 / 100
  · rw [if_pos hcond] at hfa
    rw [Option.map_eq_some'] at hfa
    obtain ⟨e, hdg, heq⟩ := hfa
    subst heq
    exact ⟨hcond, rfl, hdg⟩
  · rw [if_neg hcond] at hfa
    cases hfa

/-- Claim C6: the contract of `match_exercise`, for every scorer, low
threshold, catalog, text and top-n: (1) whenever the returned normalized
top score is below the low threshold, best is `None` — regardless of the
other candidates; (2) at most `top_n - 1` alternatives are returned;
(3) every alternative scores at least the low threshold; (4) best is never
among the alternatives; (5) the alternatives are ordered by descending
score; (6) an empty catalog yields exactly `(None, 0, [])`.  The concrete
matcher `matchExercise` is the instance at the `tokenSortSimilarity`
scorer and the configured `exercise_match_low_threshold`. -/
theorem c6_matcher_contract (scorer : String → String → ℚ) (low_threshold : ℚ)
    (exercises : List Exercise) (text : String) (top_n : ℕ) :
    ((matchExerciseWith scorer low_threshold exercises text top_n).2.1 < low_threshold →
      (matchExerciseWith scorer low_threshold exercises text top_n).1 = none) ∧
    (matchExerciseWith scorer low_threshold exercises text top_n).2.2.length ≤ top_n - 1 ∧
    (∀ p ∈ (matchExerciseWith scorer low_threshold exercises text top_n).2.2,
      low_threshold ≤ p.2) ∧
    (∀ p ∈ (matchExerciseWith scorer low_threshold exercises text top_n).2.2,
      some p.1 ≠ (matchExerciseWith scorer low_threshold exercises text top_n).1) ∧
    (matchExerciseWith scorer low_threshold exercises text top_n).2.2.Pairwise
      (fun a b => b.2 ≤ a.2) ∧
    (exercises = [] →
      matchExerciseWith scorer low_threshold exercises text top_n = (none, 0, [])) := by
  cases hexs : exercises with
  | nil =>
    refine ⟨fun _ => rfl, ?_, ?_, ?_, ?_, fun _ => rfl⟩ <;> simp [matchExerciseWith]
  | cons e0 rest0 =>
    have hsorted := processExtract_sorted scorer text (dictKeys (e0 :: rest0)) top_n
    have hkeys := processExtract_keys_nodup scorer text (dictKeys (e0 :: rest0)) top_n
      (dictKeys_nodup _)
    have hlen := processExtract_length scorer text (dictKeys (e0 :: rest0)) top_n
    have hmem := processExtract_mem scorer text (dictKeys (e0 :: rest0)) top_n
    unfold matchExerciseWith
    dsimp only
    cases hml : processExtract scorer text (dictKeys (e0 :: rest0)) top_n with
    | nil =>
      refine ⟨fun _ => rfl, ?_, ?_, ?_, ?_, fun hc => by cases hc⟩ <;> simp
    | cons hd tl =>
      obtain ⟨bn, br⟩ := hd
      rw [hml] at hsorted hkeys hlen
      dsimp only
      by_cases hlow : low_threshold ≤ br / 100
      · have hbn : bn ∈ dictKeys (e0 :: rest0) := by
          have h2 := hmem (bn, br) (by rw [hml]; exact List.mem_cons_self _ _)
          exact h2.1
        obtain ⟨be, hbe, hbename⟩ := dictGet_isSome_of_mem_keys _ _ hbn
        rw [if_pos hlow, hbe]
        simp only [Option.isSome_some, if_true]
        refine ⟨?_, ?_, ?_, ?_, ?_, fun hc => by cases hc⟩
        · intro hlt
          exact absurd hlow (not_le.mpr hlt)
        · refine le_trans (List.length_filterMap_le _ _) ?_
          have h3 : tl.length + 1 ≤ top_n := by simpa using hlen
          omega
        · intro p hp
          obtain ⟨a, ha, hfa⟩ := List.mem_filterMap.mp hp
          exact (altEntry low_threshold (e0 :: rest0) a p hfa).1
        · intro p hp heq
          obtain ⟨a, ha, hfa⟩ := List.mem_filterMap.mp hp
          obtain ⟨-, -, hdg⟩ := altEntry low_threshold (e0 :: rest0) a p hfa
          have hpname : p.1.name = a.1 := dictGet_name _ _ _ hdg
          have hane : bn ≠ a.1 := (List.pairwise_cons.mp hkeys).1 a ha
          injection heq with heq2
          exact hane (by rw [← hbename, ← heq2, hpname])
        · have htl : tl.Pairwise scoreGE := (List.pairwise_cons.mp hsorted).2
          rw [List.pairwise_filterMap]
          refine List.Pairwise.imp ?_ htl
          intro a b hab
          intro b1 hb1 b2 hb2
          obtain ⟨-, he1, -⟩ :=
            altEntry low_threshold (e0 :: rest0) a b1 (Option.mem_def.mp hb1)
          obtain ⟨-, he2, -⟩ :=
            altEntry low_threshold (e0 :: rest0) b b2 (Option.mem_def.mp hb2)
          rw [he1, he2]
          exact div_le_div_of_nonneg_right hab (by norm_num)
      · rw [if_neg hlow]
        simp only [Option.isSome_none, Bool.false_eq_true, if_false]
        have halts : (((bn, br) :: tl).filterMap (fun p =>
            if low_threshold ≤ p.2 / 100 then
              (dictGet (e0 :: rest0) p.1).map (fun e => (e, p.2 / 100))
            else none)) = [] := by
          rw [List.filterMap_eq_nil_iff]
          intro a ha
          have hle : a.2 ≤ br := by
            rcases List.mem_cons.mp ha with rfl | hmem2
            · exact le_refl _
            · exact (List.pairwise_cons.mp hsorted).1 a hmem2
          have hdiv : a.2 / 100 ≤ br / 100 :=
            div_le_div_of_nonneg_right hle (by norm_num)
          have hnot : ¬ low_threshold ≤ a.2 / 100 := fun hcon =>
            hlow (le_trans hcon hdiv)
          rw [if_neg hnot]
        rw [halts]
        refine ⟨?_, ?_, ?_, ?_, ?_, ?_⟩ <;> simp

/-- Witness for C6 at the empty catalog: the result is exactly
`(none, 0, [])`. -/
theorem c6_matcher_contract_witness :
    matchExerciseWith tokenSortSimilarity exercise_match_low_threshold [] "Squat" 5 =
      (none, 0, []) :=
  (c6_matcher_contract tokenSortSimilarity exercise_match_low_threshold
    [] "Squat" 5).2.2.2.2.2 rfl

end AW
